import Mathlib

/-!
Verification development for the setthetime scheduling/booking backend
(`src/server.js`).  Timestamps are modelled as integer milliseconds since
the epoch (JavaScript `Date.getTime()`); interval endpoints are half-open.
-/

namespace SetTheTime

/-- A half-open time interval `[start, end)` in epoch milliseconds
(`{start: Date, end: Date}` in the source). -/
structure Interval where
  start : Int
  «end» : Int
deriving Repr, DecidableEq

/-- Overlap test `overlaps(aStart, aEnd, bStart, bEnd)` from `src/server.js` line 383:
`aStart < bEnd && bStart < aEnd` (half-open interval intersection). -/
def overlaps (aStart aEnd bStart bEnd : Int) : Bool :=
  decide (aStart < bEnd) && decide (bStart < aEnd)

/-- The body of the `GET /availability` slot loop (`src/server.js` lines
422-429), written with an explicit iteration budget `fuel`:
`for (let t = startMs; t + stepMs <= endMs; t += stepMs)` pushes the slot
`[t, t+stepMs)` unless it overlaps some busy interval. -/
def slotsAux (stepMs endMs : Int) (busy : List Interval) : Nat → Int → List Interval
  | 0, _ => []
  | fuel + 1, t =>
    if t + stepMs ≤ endMs then
      if busy.any (fun b => overlaps t (t + stepMs) b.start b.«end») then
        slotsAux stepMs endMs busy fuel (t + stepMs)
      else
        ⟨t, t + stepMs⟩ :: slotsAux stepMs endMs busy fuel (t + stepMs)
    else []

/-- An iteration budget large enough for the whole loop when `stepMs > 0`:
the loop body runs `⌊(endMs − startMs)/stepMs⌋` times, plus one final
test of the loop condition. -/
def slotFuel (startMs endMs stepMs : Int) : Nat :=
  (endMs - startMs).toNat / stepMs.toNat + 1

/-- The `GET /availability` slot computation (`src/server.js` lines
417-429): `stepMs = durMin * 60 * 1000`, then the slot loop over the
query window `[startMs, endMs]` against the fetched busy intervals. -/
def availabilitySlots (startMs endMs durMin : Int) (busy : List Interval) : List Interval :=
  slotsAux (durMin * 60 * 1000) endMs busy
    (slotFuel startMs endMs (durMin * 60 * 1000)) startMs

/-- The `POST /meeting-types` validation (`src/server.js` lines 348-356):
a request is accepted only if `title` and `duration_minutes` are truthy
and the duration is a positive number. -/
def meetingTypeAccepted (title : String) (duration_minutes : Int) : Bool :=
  if title == "" || duration_minutes == 0 then false
  else decide (0 < duration_minutes)

/-! ## Booking model

`POST /book` (`src/server.js` lines 441-526) runs over a store (the
Postgres tables the handler touches) and external collaborators (Google
auth, freebusy, event insertion, email dispatch), each modelled as an
oracle recording the outcome of the corresponding call. -/

/-- A row of `meeting_types`. -/
structure MeetingType where
  id : Nat
  user_id : Nat
  title : String
  duration_minutes : Int
deriving Repr, DecidableEq

/-- A row of `users` (only the columns `/book` reads). -/
structure User where
  id : Nat
  email : String
deriving Repr, DecidableEq

/-- A row of `bookings`. -/
structure Booking where
  id : Nat
  meeting_type_id : Nat
  recipient_name : String
  recipient_email : String
  start_time : Int
  end_time : Int
  status : String
deriving Repr, DecidableEq

/-- A row of `email_outbox` (the columns `sendEmail` writes). -/
structure EmailReq where
  to_email : String
  from_email : String
  subject : String
  text_body : String
deriving Repr, DecidableEq

/-- The database tables the booking flow reads or writes. -/
structure Store where
  meeting_types : List MeetingType
  users : List User
  bookings : List Booking
  email_outbox : List EmailReq
deriving Repr, DecidableEq

/-- The distinct responses `POST /book` can produce. -/
inductive BookResult where
  | invalidInput (msg : String)
  | notFound
  | hostMissing
  | calendarConflict
  | localConflict
  | upstreamFailure (msg : String)
  | success (bookingId : Nat) (eventId : Nat) (startMs endMs : Int)
deriving Repr, DecidableEq

/-- External calls issued during a booking attempt, in order. -/
inductive ExtCall where
  | freebusyQuery (timeMin timeMax : Int)
  | eventsInsert
  | emailSend (recipient : String)
deriving Repr, DecidableEq

/-- Oracles for the external collaborators: each field records what the
corresponding call would return (or that it would throw). -/
structure Collaborators where
  googleAuth : Except String Unit
  freebusy : Except String (List Interval)
  eventInsert : Except String Nat
  bookingInsertOk : Bool
  emailOk : EmailReq → Bool

/-- The observable outcome of a booking attempt: the response, the final
store, and the external calls made. -/
structure BookOutcome where
  result : BookResult
  store : Store
  calls : List ExtCall
deriving Repr

/-- The HTTP shape of each `BookResult`, as produced by the handler's
`res.status(...).json(...)` calls. -/
structure HttpResponse where
  status : Nat
  ok : Bool
  error : Option String
deriving Repr, DecidableEq

/-- Maps each booking result to its HTTP response (`src/server.js` lines
445, 448, 454, 458, 472, 485, 522, 524). -/
def responseOf : BookResult → HttpResponse
  | .invalidInput m => ⟨400, false, some m⟩
  | .notFound => ⟨404, false, some "meeting type not found"⟩
  | .hostMissing => ⟨500, false, some "host user missing"⟩
  | .calendarConflict => ⟨409, false, some "slot not available (calendar busy)"⟩
  | .localConflict => ⟨409, false, some "slot not available (existing booking)"⟩
  | .upstreamFailure m => ⟨500, false, some m⟩
  | .success _ _ _ _ => ⟨200, true, none⟩

/-- The local-overlap query (`src/server.js` lines 475-484): does some
confirmed booking, joined to a meeting type of the given owner, satisfy
`NOT (b.end_time <= $2 OR b.start_time >= $3)`? -/
def localOverlapExists (s : Store) (ownerId : Nat) (startMs endMs : Int) : Bool :=
  s.bookings.any fun b =>
    (s.meeting_types.any fun m => m.id == b.meeting_type_id && m.user_id == ownerId) &&
    b.status == "confirmed" &&
    !(decide (b.end_time ≤ startMs) || decide (b.start_time ≥ endMs))

/-- Computes `const end = new Date(start.getTime() + duration_minutes*60*1000)`
(`src/server.js` line 461). -/
def requestedEnd (startMs : Int) (mt : MeetingType) : Int :=
  startMs + mt.duration_minutes * 60 * 1000

/-- The booking row inserted by `POST /book` (`src/server.js` lines
503-507). -/
def newBooking (s : Store) (mtId : Nat) (rname remail : String) (startMs : Int)
    (mt : MeetingType) : Booking :=
  ⟨s.bookings.length, mtId, rname, remail, startMs, requestedEnd startMs mt, "confirmed"⟩

/-- The recipient confirmation email (`src/server.js` lines 511-515). -/
def confirmEmail (mt : MeetingType) (host : User) (remail : String) : EmailReq :=
  ⟨remail, "service@setthetime.com", "Confirmed: " ++ mt.title,
    "You are booked with " ++ host.email⟩

/-- The host notification email (`src/server.js` lines 516-520). -/
def hostNotifyEmail (mt : MeetingType) (host : User) (rname remail : String) : EmailReq :=
  ⟨host.email, "service@setthetime.com", "New booking: " ++ mt.title,
    rname ++ " booked " ++ remail⟩

/-- The core of `POST /book` after input validation and the two lookups
(`src/server.js` lines 461-525): freebusy double-check, local overlap
check, calendar event insertion, booking insertion, two confirmation
emails.  Every failure is the handler's own rejection or the outer
`catch` (a 500 with the thrown message). -/
def bookCore (s : Store) (mtId : Nat) (rname remail : String) (startMs : Int)
    (mt : MeetingType) (host : User) (c : Collaborators) : BookOutcome :=
  match c.googleAuth with
  | .error e => ⟨.upstreamFailure e, s, []⟩
  | .ok _ =>
    match c.freebusy with
    | .error e => ⟨.upstreamFailure e, s, [.freebusyQuery startMs (requestedEnd startMs mt)]⟩
    | .ok busy =>
      if 0 < busy.length then
        ⟨.calendarConflict, s, [.freebusyQuery startMs (requestedEnd startMs mt)]⟩
      else if localOverlapExists s mt.user_id startMs (requestedEnd startMs mt) then
        ⟨.localConflict, s, [.freebusyQuery startMs (requestedEnd startMs mt)]⟩
      else
        match c.eventInsert with
        | .error e =>
          ⟨.upstreamFailure e, s,
            [.freebusyQuery startMs (requestedEnd startMs mt), .eventsInsert]⟩
        | .ok eventId =>
          if c.bookingInsertOk then
            if c.emailOk (confirmEmail mt host remail) then
              if c.emailOk (hostNotifyEmail mt host rname remail) then
                ⟨.success s.bookings.length eventId startMs (requestedEnd startMs mt),
                  { s with
                    bookings := s.bookings ++ [newBooking s mtId rname remail startMs mt],
                    email_outbox := s.email_outbox ++
                      [confirmEmail mt host remail, hostNotifyEmail mt host rname remail] },
                  [.freebusyQuery startMs (requestedEnd startMs mt), .eventsInsert,
                    .emailSend remail, .emailSend host.email]⟩
              else
                ⟨.upstreamFailure "email dispatch failed",
                  { s with
                    bookings := s.bookings ++ [newBooking s mtId rname remail startMs mt],
                    email_outbox := s.email_outbox ++ [confirmEmail mt host remail] },
                  [.freebusyQuery startMs (requestedEnd startMs mt), .eventsInsert,
                    .emailSend remail, .emailSend host.email]⟩
            else
              ⟨.upstreamFailure "email dispatch failed",
                { s with
                  bookings := s.bookings ++ [newBooking s mtId rname remail startMs mt] },
                [.freebusyQuery startMs (requestedEnd startMs mt), .eventsInsert,
                  .emailSend remail]⟩
          else
            ⟨.upstreamFailure "booking insert failed", s,
              [.freebusyQuery startMs (requestedEnd startMs mt), .eventsInsert]⟩

/-- The meeting-type and host lookups of `POST /book` (`src/server.js`
lines 450-459). -/
def bookLookups (s : Store) (mtId : Nat) (rname remail : String) (startMs : Int)
    (c : Collaborators) : BookOutcome :=
  match s.meeting_types.find? (fun m => m.id == mtId) with
  | none => ⟨.notFound, s, []⟩
  | some mt =>
    match s.users.find? (fun u => u.id == mt.user_id) with
    | none => ⟨.hostMissing, s, []⟩
    | some host => bookCore s mtId rname remail startMs mt host c

/-- The request body of `POST /book`; `none` models an absent field. -/
structure BookRequest where
  meetingTypeId : Option Nat
  recipient_name : Option String
  recipient_email : Option String
  start_time : Option String
deriving Repr, DecidableEq

/-- Handler `POST /book` (`src/server.js` lines 441-526).  `parseDate` models
JavaScript `new Date(...)` (returning `none` for an invalid date); an
empty string field is falsy and counts as missing. -/
def book (s : Store) (req : BookRequest) (parseDate : String → Option Int)
    (c : Collaborators) : BookOutcome :=
  match req.meetingTypeId, req.recipient_name, req.recipient_email, req.start_time with
  | some mtId, some rname, some remail, some stime =>
    if rname == "" || remail == "" || stime == "" then
      ⟨.invalidInput "missing meetingTypeId, recipient_name, recipient_email, or start_time", s, []⟩
    else
      match parseDate stime with
      | none => ⟨.invalidInput "invalid start_time", s, []⟩
      | some startMs => bookLookups s mtId rname remail startMs c
  | _, _, _, _ =>
    ⟨.invalidInput "missing meetingTypeId, recipient_name, recipient_email, or start_time", s, []⟩

/-- Bookings `b1` and `b2` belong to the same owner under the SQL join
semantics of the overlap query: some meeting type carrying `b1` and some
meeting type carrying `b2` have the same `user_id`. -/
def sameOwner (mts : List MeetingType) (b1 b2 : Booking) : Bool :=
  mts.any fun m1 =>
    m1.id == b1.meeting_type_id &&
    mts.any fun m2 => m2.id == b2.meeting_type_id && m1.user_id == m2.user_id

/-- Half-open overlap of two bookings. -/
def overlapsB (b1 b2 : Booking) : Bool :=
  overlaps b1.start_time b1.end_time b2.start_time b2.end_time

/-- The spec's invariant: no two confirmed bookings of the same owner
overlap. -/
def noConfirmedOverlap (s : Store) : Prop :=
  s.bookings.Pairwise fun b1 b2 =>
    b1.status = "confirmed" → b2.status = "confirmed" →
    sameOwner s.meeting_types b1 b2 = true → overlapsB b1 b2 = false

/-! ## Lemmas about the slot loop -/

/-- The iteration budget `slotFuel` really bounds the loop:
`endMs - startMs < slotFuel * stepMs` whenever the step is positive. -/
lemma lt_slotFuel_mul (startMs endMs stepMs : Int) (h : 0 < stepMs) :
    endMs - startMs < (slotFuel startMs endMs stepMs : Int) * stepMs := by
  unfold slotFuel
  set a : Int := endMs - startMs with ha
  rcases le_or_lt a 0 with hle | hpos
  · have h1 : (1 : Int) ≤ ((a.toNat / stepMs.toNat + 1 : Nat) : Int) := by
      exact_mod_cast Nat.succ_le_succ (Nat.zero_le _)
    nlinarith
  · have hS : 0 < stepMs.toNat := by omega
    set A : Nat := a.toNat with hA
    set S : Nat := stepMs.toNat with hS2
    have hnat : A < (A / S + 1) * S := by
      have h1 := Nat.div_add_mod A S
      have h2 : A % S < S := Nat.mod_lt _ hS
      have h3 : A < S * (A / S) + S := by omega
      calc A < S * (A / S) + S := h3
        _ = (A / S + 1) * S := by ring
    have hcast : ((A : Int)) < ((A / S + 1 : Nat) : Int) * (S : Int) := by
      exact_mod_cast hnat
    have hAa : (A : Int) = a := by omega
    have hSs : (S : Int) = stepMs := by omega
    rw [hAa, hSs] at hcast
    exact hcast

/-- Soundness of the slot loop: every emitted slot passed the conflict
check, so it overlaps no busy interval. -/
lemma slotsAux_sound (stepMs endMs : Int) (busy : List Interval) :
    ∀ (fuel : Nat) (t : Int), ∀ sl ∈ slotsAux stepMs endMs busy fuel t,
      ∀ b ∈ busy, overlaps sl.start sl.«end» b.start b.«end» = false := by
  intro fuel
  induction fuel with
  | zero => intro t sl hsl; simp [slotsAux] at hsl
  | succ n ih =>
    intro t sl hsl b hb
    simp only [slotsAux] at hsl
    split at hsl
    · split at hsl
      · exact ih (t + stepMs) sl hsl b hb
      · rcases List.mem_cons.mp hsl with h | h
        · subst h
          rename_i hany
          rw [Bool.eq_false_iff]
          intro hover
          exact hany (List.any_eq_true.mpr ⟨b, hb, hover⟩)
        · exact ih (t + stepMs) sl h b hb
    · simp at hsl

/-- Completeness of the slot loop: a candidate slot aligned on the step
grid that fits in the window and conflicts with no busy interval is
emitted (given enough fuel). -/
lemma slotsAux_complete (stepMs endMs : Int) (busy : List Interval) (hstep : 0 < stepMs) :
    ∀ (k fuel : Nat) (t : Int),
      endMs - t < (fuel : Int) * stepMs →
      t + (k : Int) * stepMs + stepMs ≤ endMs →
      (∀ b ∈ busy,
        overlaps (t + (k : Int) * stepMs) (t + (k : Int) * stepMs + stepMs)
          b.start b.«end» = false) →
      Interval.mk (t + (k : Int) * stepMs) (t + (k : Int) * stepMs + stepMs) ∈
        slotsAux stepMs endMs busy fuel t := by
  intro k
  induction k with
  | zero =>
    intro fuel t hfuel hfit hno
    simp only [Nat.cast_zero, zero_mul, add_zero] at hfit hno ⊢
    match fuel with
    | 0 =>
      exfalso
      simp only [Nat.cast_zero, zero_mul] at hfuel
      omega
    | n + 1 =>
      simp only [slotsAux]
      rw [if_pos hfit]
      have hany : busy.any (fun b => overlaps t (t + stepMs) b.start b.«end») = false :=
        List.any_eq_false.mpr fun b hb => by simp [hno b hb]
      rw [if_neg (by simp [hany])]
      exact List.mem_cons_self _ _
  | succ k ih =>
    intro fuel t hfuel hfit hno
    have hK : (0 : Int) ≤ (k : Int) := Int.natCast_nonneg k
    have harith : t + ((k + 1 : Nat) : Int) * stepMs = (t + stepMs) + (k : Int) * stepMs := by
      push_cast
      ring
    match fuel with
    | 0 =>
      exfalso
      simp only [Nat.cast_zero, zero_mul] at hfuel
      push_cast at hfit
      nlinarith
    | n + 1 =>
      have hcond : t + stepMs ≤ endMs := by
        push_cast at hfit
        nlinarith
      have hfuel2 : endMs - (t + stepMs) < (n : Int) * stepMs := by
        push_cast at hfuel
        linarith
      have hfit2 : (t + stepMs) + (k : Int) * stepMs + stepMs ≤ endMs := by
        rw [harith] at hfit
        exact hfit
      have hno2 : ∀ b ∈ busy,
          overlaps ((t + stepMs) + (k : Int) * stepMs)
            ((t + stepMs) + (k : Int) * stepMs + stepMs) b.start b.«end» = false := by
        intro b hb
        have := hno b hb
        rw [harith] at this
        exact this
      have hmem := ih n (t + stepMs) hfuel2 hfit2 hno2
      simp only [slotsAux]
      rw [if_pos hcond, harith]
      by_cases hany : busy.any (fun b => overlaps t (t + stepMs) b.start b.«end») = true
      · rw [if_pos hany]
        exact hmem
      · rw [if_neg hany]
        exact List.mem_cons_of_mem _ hmem

/-- With no busy intervals the loop produces the full contiguous tiling
of the window. -/
lemma slotsAux_nil (stepMs endMs : Int) (hstep : 0 < stepMs) :
    ∀ (fuel : Nat) (t : Int), endMs - t < (fuel : Int) * stepMs →
      slotsAux stepMs endMs [] fuel t =
        (List.range ((endMs - t).toNat / stepMs.toNat)).map
          (fun (k : Nat) => Interval.mk (t + (k : Int) * stepMs) (t + ((k : Int) + 1) * stepMs)) := by
  intro fuel
  induction fuel with
  | zero =>
    intro t hf
    simp only [Nat.cast_zero, zero_mul] at hf
    have h0 : (endMs - t).toNat = 0 := by omega
    simp [slotsAux, h0]
  | succ n ih =>
    intro t hf
    simp only [slotsAux]
    by_cases hc : t + stepMs ≤ endMs
    · rw [if_pos hc]
      simp only [List.any_nil, Bool.false_eq_true, if_false]
      rw [ih (t + stepMs) (by push_cast at hf ⊢; linarith)]
      have hS : 0 < stepMs.toNat := by omega
      have hcount : (endMs - t).toNat / stepMs.toNat
          = (endMs - (t + stepMs)).toNat / stepMs.toNat + 1 := by
        have h1 : (endMs - t).toNat = (endMs - (t + stepMs)).toNat + stepMs.toNat := by omega
        rw [h1, Nat.add_div_right _ hS]
      rw [hcount, List.range_succ_eq_map, List.map_cons, List.map_map]
      congr 1
      · simp
      · apply List.map_congr_left
        intro k _
        simp only [Function.comp_apply, Interval.mk.injEq]
        constructor
        · push_cast
          ring
        · push_cast
          ring
    · rw [if_neg hc]
      have hlt : (endMs - t).toNat < stepMs.toNat := by omega
      simp [Nat.div_eq_of_lt hlt]

/-- Extra fuel beyond the loop's actual iteration count does not change
the result: the loop terminates within `fuel` iterations. -/
lemma slotsAux_add_fuel (stepMs endMs : Int) (busy : List Interval) (hstep : 0 < stepMs) :
    ∀ (fuel : Nat) (t : Int), endMs - t < (fuel : Int) * stepMs →
      ∀ extra : Nat,
        slotsAux stepMs endMs busy (fuel + extra) t = slotsAux stepMs endMs busy fuel t := by
  intro fuel
  induction fuel with
  | zero =>
    intro t hf extra
    simp only [Nat.cast_zero, zero_mul] at hf
    match extra with
    | 0 => rfl
    | e + 1 =>
      simp only [Nat.zero_add, slotsAux]
      rw [if_neg (by omega)]
  | succ n ih =>
    intro t hf extra
    have hre : n + 1 + extra = (n + extra) + 1 := by omega
    rw [hre]
    simp only [slotsAux]
    by_cases hc : t + stepMs ≤ endMs
    · rw [if_pos hc, if_pos hc]
      have hf2 : endMs - (t + stepMs) < (n : Int) * stepMs := by
        push_cast at hf
        linarith
      rw [ih (t + stepMs) hf2 extra]
    · rw [if_neg hc, if_neg hc]

/-! ## Claim theorems: availability -/

/-- Claim C1: Every slot returned by the availability computation overlaps
no busy interval under the half-open test, and a candidate slot that
merely touches busy-interval boundaries — more generally, any aligned
candidate slot overlapping no busy interval under the half-open test —
is still returned. -/
theorem availability_sound_and_touching_kept
    (startMs endMs durMin : Int) (busy : List Interval) (h : 0 < durMin) :
    (∀ sl ∈ availabilitySlots startMs endMs durMin busy,
      ∀ b ∈ busy, overlaps sl.start sl.«end» b.start b.«end» = false) ∧
    (∀ k : Nat,
      startMs + (k : Int) * (durMin * 60 * 1000) + durMin * 60 * 1000 ≤ endMs →
      (∀ b ∈ busy,
        overlaps (startMs + (k : Int) * (durMin * 60 * 1000))
          (startMs + (k : Int) * (durMin * 60 * 1000) + durMin * 60 * 1000)
          b.start b.«end» = false) →
      Interval.mk (startMs + (k : Int) * (durMin * 60 * 1000))
          (startMs + (k : Int) * (durMin * 60 * 1000) + durMin * 60 * 1000) ∈
        availabilitySlots startMs endMs durMin busy) := by
  have hstep : (0 : Int) < durMin * 60 * 1000 := by positivity
  constructor
  · intro sl hsl b hb
    exact slotsAux_sound _ _ busy _ startMs sl hsl b hb
  · intro k hfit hno
    exact slotsAux_complete _ _ busy hstep k _ startMs
      (lt_slotFuel_mul startMs endMs _ hstep) hfit hno

/-- Witness for C1: the spec's example — busy `[10:00, 10:30)`, candidate
slot `[10:30, 11:00)` touching its end — is still returned. -/
theorem availability_sound_and_touching_kept_witness :
    Interval.mk 37800000 39600000 ∈
      availabilitySlots 37800000 39600000 30 [⟨36000000, 37800000⟩] := by
  have h := (availability_sound_and_touching_kept 37800000 39600000 30
    [⟨36000000, 37800000⟩] (by decide)).2 0 (by decide) (by decide)
  simpa using h

/-- Counterexample to C5 as stated: for the window 09:00–10:00 (epoch ms
`32400000`–`36000000`), duration 30 minutes and busy `[09:15, 09:45)`
(`33300000`–`35100000`), the computation does not return the single slot
`[09:30, 10:00)` — the 09:30 slot overlaps the busy interval from 09:30
to 09:45 under the half-open test, so it is eliminated as well. -/
theorem availability_scenario_B_counterexample :
    availabilitySlots 32400000 36000000 30 [⟨33300000, 35100000⟩] ≠
      [⟨34200000, 36000000⟩] := by decide

/-- Claim C5, amended: for the window 09:00–10:00 with duration 30
minutes and the single busy interval `[09:15, 09:45)`, the availability
computation returns no slot at all: the 09:00 slot overlaps busy from
09:15 to 09:30, and the 09:30 slot overlaps busy from 09:30 to 09:45. -/
theorem availability_scenario_B_amended :
    availabilitySlots 32400000 36000000 30 [⟨33300000, 35100000⟩] = [] := by decide

/-- Claim C6: With no busy intervals, the availability computation returns
exactly `⌊(endMs − startMs)/step⌋` slots, tiled contiguously from
`startMs` with each slot exactly one duration long and ending at or
before `endMs`. -/
theorem availability_full_tiling
    (startMs endMs durMin : Int) (h : 0 < durMin) :
    availabilitySlots startMs endMs durMin [] =
      (List.range ((endMs - startMs).toNat / (durMin * 60 * 1000).toNat)).map
        (fun (k : Nat) => Interval.mk (startMs + (k : Int) * (durMin * 60 * 1000))
          (startMs + ((k : Int) + 1) * (durMin * 60 * 1000))) ∧
    (availabilitySlots startMs endMs durMin []).length =
      (endMs - startMs).toNat / (durMin * 60 * 1000).toNat ∧
    (∀ sl ∈ availabilitySlots startMs endMs durMin [],
      sl.«end» - sl.start = durMin * 60 * 1000 ∧ sl.«end» ≤ endMs) := by
  have hstep : (0 : Int) < durMin * 60 * 1000 := by positivity
  have hmap := slotsAux_nil (durMin * 60 * 1000) endMs hstep _ startMs
    (lt_slotFuel_mul startMs endMs _ hstep)
  have hmain : availabilitySlots startMs endMs durMin [] =
      (List.range ((endMs - startMs).toNat / (durMin * 60 * 1000).toNat)).map
        (fun (k : Nat) => Interval.mk (startMs + (k : Int) * (durMin * 60 * 1000))
          (startMs + ((k : Int) + 1) * (durMin * 60 * 1000))) := hmap
  refine ⟨hmain, ?_, ?_⟩
  · rw [hmain, List.length_map, List.length_range]
  · intro sl hsl
    rw [hmain] at hsl
    rcases List.mem_map.mp hsl with ⟨k, hk, rfl⟩
    rw [List.mem_range] at hk
    constructor
    · ring
    · set S : Nat := (durMin * 60 * 1000).toNat with hSdef
      set A : Nat := (endMs - startMs).toNat with hAdef
      have hSpos : 0 < S := by omega
      have hk1 : (k + 1) * S ≤ (A / S) * S := Nat.mul_le_mul_right S hk
      have hk2 : (A / S) * S ≤ A := Nat.div_mul_le_self A S
      have hk3 : (k + 1) * S ≤ A := le_trans hk1 hk2
      rcases le_or_lt 0 (endMs - startMs) with hpos | hneg
      · have hAint : (A : Int) = endMs - startMs := by omega
        have hSint : (S : Int) = durMin * 60 * 1000 := by omega
        have hcast : ((k + 1 : Nat) : Int) * (S : Int) ≤ (A : Int) := by
          exact_mod_cast hk3
        rw [hAint, hSint] at hcast
        push_cast at hcast ⊢
        linarith
      · exfalso
        have hA0 : A = 0 := by omega
        rw [hA0] at hk3
        have : 0 < (k + 1) * S := Nat.mul_pos (Nat.succ_pos k) hSpos
        omega

/-- Witness for C6: scenario A — window 09:00–10:00, duration 30, no
busy intervals — yields the two-slot tiling. -/
theorem availability_full_tiling_witness :
    availabilitySlots 32400000 36000000 30 [] =
      [⟨32400000, 34200000⟩, ⟨34200000, 36000000⟩] := by
  rw [(availability_full_tiling 32400000 36000000 30 (by decide)).1]
  decide

/-- Claim C9: The slot loop terminates: once the fuel reaches the bound
`slotFuel`, more fuel never changes the result, so the loop's value is
reached after finitely many iterations; and meeting-type creation
accepts only positive durations. -/
theorem slot_loop_terminates_and_duration_positive
    (startMs endMs durMin : Int) (busy : List Interval) (h : 0 < durMin) :
    (∀ title dur, meetingTypeAccepted title dur = true → 0 < dur) ∧
    (∀ fuel : Nat, slotFuel startMs endMs (durMin * 60 * 1000) ≤ fuel →
      slotsAux (durMin * 60 * 1000) endMs busy fuel startMs =
        availabilitySlots startMs endMs durMin busy) := by
  have hstep : (0 : Int) < durMin * 60 * 1000 := by positivity
  constructor
  · intro title dur hacc
    unfold meetingTypeAccepted at hacc
    split at hacc
    · exact absurd hacc (by simp)
    · exact of_decide_eq_true hacc
  · intro fuel hle
    obtain ⟨extra, rfl⟩ := Nat.exists_eq_add_of_le hle
    exact slotsAux_add_fuel _ _ busy hstep _ startMs
      (lt_slotFuel_mul startMs endMs _ hstep) extra

/-- Witness for C9 at a concrete window: fuel 5 exceeds the bound 3 and
gives the same slots. -/
theorem slot_loop_terminates_and_duration_positive_witness :
    slotsAux (30 * 60 * 1000) 3600000 [] 5 0 = availabilitySlots 0 3600000 30 [] :=
  (slot_loop_terminates_and_duration_positive 0 3600000 30 [] (by decide)).2 5 (by decide)

/-- Claim C10: A query window shorter than one duration — including empty
and inverted windows — yields the empty slot list. -/
theorem availability_short_window_empty
    (startMs endMs durMin : Int) (busy : List Interval)
    (_hdur : 0 < durMin) (hshort : endMs - startMs < durMin * 60 * 1000) :
    availabilitySlots startMs endMs durMin busy = [] := by
  unfold availabilitySlots slotFuel
  simp only [slotsAux]
  rw [if_neg (by omega)]

/-- Witness for C10: an inverted window returns no slots. -/
theorem availability_short_window_empty_witness :
    availabilitySlots 36000000 32400000 30 [⟨0, 1000⟩] = [] :=
  availability_short_window_empty 36000000 32400000 30 [⟨0, 1000⟩]
    (by decide) (by decide)

/-! ## Lemmas about the booking flow -/

/-- A valid request body reduces `book` to the lookup stage. -/
lemma book_reduce (s : Store) (mtId : Nat) (rname remail stime : String)
    (startMs : Int) (parseDate : String → Option Int) (c : Collaborators)
    (hrn : rname ≠ "") (hre : remail ≠ "") (hst : stime ≠ "")
    (hp : parseDate stime = some startMs) :
    book s ⟨some mtId, some rname, some remail, some stime⟩ parseDate c =
      bookLookups s mtId rname remail startMs c := by
  simp only [book, hp]
  rw [if_neg (by simp [hrn, hre, hst])]

/-- Successful meeting-type and host lookups reduce `bookLookups` to the
core flow. -/
lemma bookLookups_reduce (s : Store) (mtId : Nat) (rname remail : String)
    (startMs : Int) (c : Collaborators) (mt : MeetingType) (host : User)
    (hfind : s.meeting_types.find? (fun m => m.id == mtId) = some mt)
    (hhost : s.users.find? (fun u => u.id == mt.user_id) = some host) :
    bookLookups s mtId rname remail startMs c =
      bookCore s mtId rname remail startMs mt host c := by
  simp only [bookLookups, hfind, hhost]

/-- If calendar-event insertion fails, the core flow leaves the store
unchanged, dispatches no email, and does not succeed. -/
lemma bookCore_event_failure (s : Store) (mtId : Nat) (rname remail : String)
    (startMs : Int) (mt : MeetingType) (host : User) (c : Collaborators)
    (e : String) (hev : c.eventInsert = .error e) :
    (bookCore s mtId rname remail startMs mt host c).store = s ∧
    (∀ r, ExtCall.emailSend r ∉ (bookCore s mtId rname remail startMs mt host c).calls) ∧
    (∀ bid eid st en,
      (bookCore s mtId rname remail startMs mt host c).result ≠ .success bid eid st en) := by
  cases hga : c.googleAuth with
  | error e2 => simp [bookCore, hga]
  | ok u =>
    cases hfb : c.freebusy with
    | error e2 => simp [bookCore, hga, hfb]
    | ok busy =>
      by_cases h1 : 0 < busy.length
      · simp [bookCore, hga, hfb, h1]
      · by_cases h2 : localOverlapExists s mt.user_id startMs (requestedEnd startMs mt) = true
        · simp [bookCore, hga, hfb, h1, h2]
        · simp [bookCore, hga, hfb, h1, h2, hev]

/-- Inversion of a successful core run: success implies the local overlap
query found nothing, and the final store extends the bookings by exactly
the new confirmed row while leaving the meeting types unchanged. -/
lemma bookCore_success_inv (s : Store) (mtId : Nat) (rname remail : String)
    (startMs : Int) (mt : MeetingType) (host : User) (c : Collaborators)
    (bid eid : Nat) (st en : Int)
    (hres : (bookCore s mtId rname remail startMs mt host c).result = .success bid eid st en) :
    localOverlapExists s mt.user_id startMs (requestedEnd startMs mt) = false ∧
    st = startMs ∧ en = requestedEnd startMs mt ∧
    (bookCore s mtId rname remail startMs mt host c).store.meeting_types = s.meeting_types ∧
    (bookCore s mtId rname remail startMs mt host c).store.bookings =
      s.bookings ++ [newBooking s mtId rname remail startMs mt] := by
  cases hga : c.googleAuth with
  | error e2 => simp [bookCore, hga] at hres
  | ok u =>
    cases hfb : c.freebusy with
    | error e2 => simp [bookCore, hga, hfb] at hres
    | ok busy =>
      by_cases h1 : 0 < busy.length
      · simp [bookCore, hga, hfb, h1] at hres
      · by_cases h2 : localOverlapExists s mt.user_id startMs (requestedEnd startMs mt) = true
        · simp [bookCore, hga, hfb, h1, h2] at hres
        · cases hev : c.eventInsert with
          | error e => simp [bookCore, hga, hfb, h1, h2, hev] at hres
          | ok eventId =>
            by_cases h3 : c.bookingInsertOk = true
            · by_cases h4 : c.emailOk (confirmEmail mt host remail) = true
              · by_cases h5 : c.emailOk (hostNotifyEmail mt host rname remail) = true
                · simp [bookCore, hga, hfb, h1, h2, hev, h3, h4, h5] at hres ⊢
                  obtain ⟨h6, h7, h8, h9⟩ := hres
                  exact ⟨h8.symm, h9.symm⟩
                · simp [bookCore, hga, hfb, h1, h2, hev, h3, h4, h5] at hres
              · simp [bookCore, hga, hfb, h1, h2, hev, h3, h4] at hres
            · simp [bookCore, hga, hfb, h1, h2, hev, h3] at hres

/-- Inversion of a successful `book` run, lifted over validation and the
lookups. -/
lemma book_success_inv (s : Store) (req : BookRequest) (parseDate : String → Option Int)
    (c : Collaborators) (bid eid : Nat) (st en : Int)
    (hres : (book s req parseDate c).result = .success bid eid st en) :
    ∃ mtId rname remail startMs mt,
      s.meeting_types.find? (fun m => m.id == mtId) = some mt ∧
      localOverlapExists s mt.user_id startMs (requestedEnd startMs mt) = false ∧
      (book s req parseDate c).store.meeting_types = s.meeting_types ∧
      (book s req parseDate c).store.bookings =
        s.bookings ++ [newBooking s mtId rname remail startMs mt] := by
  rcases req with ⟨mtid, rn, re, stf⟩
  cases mtid with
  | none => simp [book] at hres
  | some mtId =>
  cases rn with
  | none => simp [book] at hres
  | some rname =>
  cases re with
  | none => simp [book] at hres
  | some remail =>
  cases stf with
  | none => simp [book] at hres
  | some stime =>
  by_cases hempty : (rname == "" || remail == "" || stime == "") = true
  · simp [book, hempty] at hres
  · cases hp : parseDate stime with
    | none => simp [book, hp, hempty] at hres
    | some startMs =>
      have hb : book s ⟨some mtId, some rname, some remail, some stime⟩ parseDate c
          = bookLookups s mtId rname remail startMs c := by
        simp only [book, hp]
        rw [if_neg hempty]
      rw [hb] at hres ⊢
      cases hfind : s.meeting_types.find? (fun m => m.id == mtId) with
      | none => simp [bookLookups, hfind] at hres
      | some mt =>
        cases hhost : s.users.find? (fun u => u.id == mt.user_id) with
        | none => simp [bookLookups, hfind, hhost] at hres
        | some host =>
          rw [bookLookups_reduce s mtId rname remail startMs c mt host hfind hhost] at hres ⊢
          obtain ⟨hlocal, _, _, hmts, hbk⟩ :=
            bookCore_success_inv s mtId rname remail startMs mt host c bid eid st en hres
          exact ⟨mtId, rname, remail, startMs, mt, hfind, hlocal, hmts, hbk⟩

/-- A `find?` hit on a meeting-type id is the unique meeting type with
that id when the ids are distinct (the table's primary key). -/
lemma find?_unique_of_nodup (mts : List MeetingType) (mtId : Nat) (mt m : MeetingType)
    (hnd : (mts.map MeetingType.id).Nodup)
    (hfind : mts.find? (fun x => x.id == mtId) = some mt)
    (hm : m ∈ mts) (hid : m.id = mtId) : m = mt := by
  have hmtmem : mt ∈ mts := List.mem_of_find?_eq_some hfind
  have hmtid : mt.id = mtId := by
    have := List.find?_some hfind
    simpa using this
  exact List.inj_on_of_nodup_map hnd hm hmtmem (by rw [hid, hmtid])

/-! ## Concrete fixtures for witnesses and counterexamples -/

/-- A store with one meeting type (id 1, owner 7, 30 minutes), its host
user, and no bookings. -/
def sampleStore : Store :=
  ⟨[⟨1, 7, "Intro call", 30⟩], [⟨7, "host@example.com"⟩], [], []⟩

/-- A well-formed booking request for meeting type 1. -/
def sampleReq : BookRequest :=
  ⟨some 1, some "Alice", some "alice@example.com", some "2030-01-01T00:00:00Z"⟩

/-- A booking request for a meeting type id that does not exist. -/
def notFoundReq : BookRequest :=
  ⟨some 2, some "Alice", some "alice@example.com", some "2030-01-01T00:00:00Z"⟩

/-- A date parser mapping the sample timestamp to epoch `0`. -/
def sampleParse : String → Option Int := fun _ => some 0

/-- Collaborators for which every external call succeeds and the calendar
is free. -/
def happyCollab : Collaborators := ⟨.ok (), .ok [], .ok 99, true, fun _ => true⟩

/-- Collaborators whose freebusy answer is a single interval that touches
the requested window `[0, 1800000)` without overlapping it. -/
def touchingCollab : Collaborators :=
  ⟨.ok (), .ok [⟨1800000, 1860000⟩], .ok 99, true, fun _ => true⟩

/-- Collaborators for which calendar-event creation fails. -/
def eventFailCollab : Collaborators :=
  ⟨.ok (), .ok [], .error "calendar event creation failed", true, fun _ => true⟩

/-- Collaborators for which email dispatch fails. -/
def emailFailCollab : Collaborators := ⟨.ok (), .ok [], .ok 99, true, fun _ => false⟩

/-! ## Claim theorems: booking -/

/-- Claim C4: If calendar-event creation fails, the booking operation
aborts with no partial state: the store (bookings and outbox alike) is
unchanged, no notification is dispatched, and the call does not
succeed. -/
theorem book_event_failure_aborts_clean
    (s : Store) (req : BookRequest) (parseDate : String → Option Int)
    (c : Collaborators) (e : String) (hev : c.eventInsert = .error e) :
    (book s req parseDate c).store = s ∧
    (∀ r, ExtCall.emailSend r ∉ (book s req parseDate c).calls) ∧
    (∀ bid eid st en, (book s req parseDate c).result ≠ .success bid eid st en) := by
  rcases req with ⟨mtid, rn, re, stf⟩
  cases mtid with
  | none => simp [book]
  | some mtId =>
  cases rn with
  | none => simp [book]
  | some rname =>
  cases re with
  | none => simp [book]
  | some remail =>
  cases stf with
  | none => simp [book]
  | some stime =>
  by_cases hempty : (rname == "" || remail == "" || stime == "") = true
  · have hb : book s ⟨some mtId, some rname, some remail, some stime⟩ parseDate c
        = ⟨.invalidInput "missing meetingTypeId, recipient_name, recipient_email, or start_time",
            s, []⟩ := by
      simp only [book]
      rw [if_pos hempty]
    rw [hb]
    exact ⟨rfl, by intro r; simp, by intro bid eid st en; simp⟩
  · cases hp : parseDate stime with
    | none =>
      have hb : book s ⟨some mtId, some rname, some remail, some stime⟩ parseDate c
          = ⟨.invalidInput "invalid start_time", s, []⟩ := by
        simp only [book, hp]
        rw [if_neg hempty]
      rw [hb]
      exact ⟨rfl, by intro r; simp, by intro bid eid st en; simp⟩
    | some startMs =>
      have hb : book s ⟨some mtId, some rname, some remail, some stime⟩ parseDate c
          = bookLookups s mtId rname remail startMs c := by
        simp only [book, hp]
        rw [if_neg hempty]
      rw [hb]
      cases hfind : s.meeting_types.find? (fun m => m.id == mtId) with
      | none => simp [bookLookups, hfind]
      | some mt =>
        cases hhost : s.users.find? (fun u => u.id == mt.user_id) with
        | none => simp [bookLookups, hfind, hhost]
        | some host =>
          rw [bookLookups_reduce s mtId rname remail startMs c mt host hfind hhost]
          exact bookCore_event_failure s mtId rname remail startMs mt host c e hev

/-- Witness for C4 at a concrete run whose calendar-event insertion
fails: the store is unchanged and no email to the recipient was sent. -/
theorem book_event_failure_aborts_clean_witness :
    (book sampleStore sampleReq sampleParse eventFailCollab).store = sampleStore ∧
    ExtCall.emailSend "alice@example.com" ∉
      (book sampleStore sampleReq sampleParse eventFailCollab).calls := by
  obtain ⟨h1, h2, h3⟩ := book_event_failure_aborts_clean sampleStore sampleReq sampleParse
    eventFailCollab "calendar event creation failed" rfl
  exact ⟨h1, h2 "alice@example.com"⟩

/-- Claim C7: Booking an unknown meeting type id yields `NOT_FOUND`,
mutates nothing, and makes no external call. -/
theorem book_unknown_meeting_type_frame
    (s : Store) (mtId : Nat) (rname remail stime : String) (startMs : Int)
    (parseDate : String → Option Int) (c : Collaborators)
    (hrn : rname ≠ "") (hre : remail ≠ "") (hst : stime ≠ "")
    (hp : parseDate stime = some startMs)
    (hfind : s.meeting_types.find? (fun m => m.id == mtId) = none) :
    (book s ⟨some mtId, some rname, some remail, some stime⟩ parseDate c).result = .notFound ∧
    (book s ⟨some mtId, some rname, some remail, some stime⟩ parseDate c).store = s ∧
    (book s ⟨some mtId, some rname, some remail, some stime⟩ parseDate c).calls = [] := by
  rw [book_reduce s mtId rname remail stime startMs parseDate c hrn hre hst hp]
  simp [bookLookups, hfind]

/-- Witness for C7: booking nonexistent meeting type 2 against the
sample store. -/
theorem book_unknown_meeting_type_frame_witness :
    (book sampleStore notFoundReq sampleParse happyCollab).result = .notFound ∧
    (book sampleStore notFoundReq sampleParse happyCollab).store = sampleStore ∧
    (book sampleStore notFoundReq sampleParse happyCollab).calls = [] :=
  book_unknown_meeting_type_frame sampleStore 2 "Alice" "alice@example.com"
    "2030-01-01T00:00:00Z" 0 sampleParse happyCollab
    (by decide) (by decide) (by decide) rfl (by decide)

/-- Claim C2: Starting from a store whose confirmed bookings are pairwise
non-overlapping per owner (and whose meeting-type ids are distinct, the
table's primary key), every successful `book` run preserves the
invariant: the inserted confirmed row passed the overlap query, so it
overlaps no existing confirmed booking of its owner. -/
theorem book_preserves_confirmed_overlap_free
    (s : Store) (req : BookRequest) (parseDate : String → Option Int) (c : Collaborators)
    (bid eid : Nat) (st en : Int)
    (hnd : (s.meeting_types.map MeetingType.id).Nodup)
    (hinv : noConfirmedOverlap s)
    (hres : (book s req parseDate c).result = .success bid eid st en) :
    noConfirmedOverlap (book s req parseDate c).store := by
  obtain ⟨mtId, rname, remail, startMs, mt, hfind, hlocal, hmts, hbk⟩ :=
    book_success_inv s req parseDate c bid eid st en hres
  unfold noConfirmedOverlap at hinv ⊢
  rw [hmts, hbk, List.pairwise_append]
  refine ⟨hinv, List.pairwise_singleton _ _, ?_⟩
  intro b hb nb hnb
  rw [List.mem_singleton] at hnb
  subst hnb
  intro hbc _ hso
  simp only [sameOwner, List.any_eq_true, Bool.and_eq_true, beq_iff_eq] at hso
  obtain ⟨m1, hm1mem, hm1id, m2, hm2mem, hm2id, huid⟩ := hso
  have hnewid : (newBooking s mtId rname remail startMs mt).meeting_type_id = mtId := rfl
  rw [hnewid] at hm2id
  have hm2eq : m2 = mt := find?_unique_of_nodup s.meeting_types mtId mt m2 hnd hfind hm2mem hm2id
  subst hm2eq
  simp only [localOverlapExists, List.any_eq_false] at hlocal
  have hlb := hlocal b hb
  have hA : (s.meeting_types.any fun m => m.id == b.meeting_type_id && m.user_id == m2.user_id)
      = true :=
    List.any_eq_true.mpr ⟨m1, hm1mem, by simp [hm1id, huid]⟩
  have hB : (b.status == "confirmed") = true := by simp [hbc]
  simp only [hA, hB, Bool.true_and, Bool.and_true] at hlb
  have hD : b.end_time ≤ startMs ∨ b.start_time ≥ requestedEnd startMs m2 := by
    by_contra hcon
    push_neg at hcon
    apply hlb
    have hd1 : decide (b.end_time ≤ startMs) = false := decide_eq_false (by omega)
    have hd2 : decide (b.start_time ≥ requestedEnd startMs m2) = false := decide_eq_false (by omega)
    simp [hd1, hd2]
  simp only [overlapsB, overlaps, newBooking]
  rw [Bool.eq_false_iff]
  intro hcontra
  rw [Bool.and_eq_true, decide_eq_true_eq, decide_eq_true_eq] at hcontra
  rcases hD with hd | hd
  · omega
  · omega

/-- Witness for C2: a successful concrete booking against the sample
store preserves the no-overlap invariant. -/
theorem book_preserves_confirmed_overlap_free_witness :
    noConfirmedOverlap (book sampleStore sampleReq sampleParse happyCollab).store := by
  apply book_preserves_confirmed_overlap_free sampleStore sampleReq sampleParse happyCollab
    0 99 0 1800000 (by decide)
  · exact List.Pairwise.nil
  · decide

/-- Counterexample to C3 as stated: the handler rejects with
`CALENDAR_CONFLICT` whenever the freshly fetched interval list is
nonempty, even when no fetched interval overlaps the requested window
`[0, 1800000)` under the half-open test. -/
theorem book_calendar_conflict_without_overlap :
    (book sampleStore sampleReq sampleParse touchingCollab).result = .calendarConflict ∧
    touchingCollab.freebusy = .ok [⟨1800000, 1860000⟩] ∧
    overlaps 0 1800000 1800000 1860000 = false :=
  ⟨by decide, rfl, by decide⟩

/-- Claim C3, amended: On every booking attempt that reaches the calendar
check, the flow queries freebusy over exactly the requested window
`[startMs, startMs + duration)` (fresh, never an earlier availability
result), and rejects with `CALENDAR_CONFLICT` exactly when the fetched
interval list is nonempty — the code tests emptiness of the returned
list, not a per-interval half-open overlap against the window. -/
theorem book_refetch_and_conflict_on_nonempty
    (s : Store) (mtId : Nat) (rname remail stime : String) (startMs : Int)
    (parseDate : String → Option Int) (c : Collaborators)
    (mt : MeetingType) (host : User) (busy : List Interval)
    (hrn : rname ≠ "") (hre : remail ≠ "") (hst : stime ≠ "")
    (hp : parseDate stime = some startMs)
    (hfind : s.meeting_types.find? (fun m => m.id == mtId) = some mt)
    (hhost : s.users.find? (fun u => u.id == mt.user_id) = some host)
    (hga : c.googleAuth = .ok ())
    (hfb : c.freebusy = .ok busy) :
    ((book s ⟨some mtId, some rname, some remail, some stime⟩ parseDate c).result
        = .calendarConflict ↔ busy ≠ []) ∧
    ExtCall.freebusyQuery startMs (requestedEnd startMs mt) ∈
      (book s ⟨some mtId, some rname, some remail, some stime⟩ parseDate c).calls := by
  rw [book_reduce s mtId rname remail stime startMs parseDate c hrn hre hst hp,
    bookLookups_reduce s mtId rname remail startMs c mt host hfind hhost]
  cases busy with
  | nil =>
    by_cases h2 : localOverlapExists s mt.user_id startMs (requestedEnd startMs mt) = true
    · simp [bookCore, hga, hfb, h2]
    · cases hev : c.eventInsert with
      | error e => simp [bookCore, hga, hfb, h2, hev]
      | ok eventId =>
        by_cases h3 : c.bookingInsertOk = true
        · by_cases h4 : c.emailOk (confirmEmail mt host remail) = true
          · by_cases h5 : c.emailOk (hostNotifyEmail mt host rname remail) = true
            · simp [bookCore, hga, hfb, h2, hev, h3, h4, h5]
            · simp [bookCore, hga, hfb, h2, hev, h3, h4, h5]
          · simp [bookCore, hga, hfb, h2, hev, h3, h4]
        · simp [bookCore, hga, hfb, h2, hev, h3]
  | cons b bs => simp [bookCore, hga, hfb]

/-- Witness for the amended C3: the touching-interval run rejects with
`CALENDAR_CONFLICT` and its trace contains a fresh freebusy query over
the requested window. -/
theorem book_refetch_and_conflict_on_nonempty_witness :
    (book sampleStore sampleReq sampleParse touchingCollab).result = .calendarConflict ∧
    ExtCall.freebusyQuery 0 1800000 ∈
      (book sampleStore sampleReq sampleParse touchingCollab).calls := by
  have h := book_refetch_and_conflict_on_nonempty sampleStore 1 "Alice" "alice@example.com"
    "2030-01-01T00:00:00Z" 0 sampleParse touchingCollab ⟨1, 7, "Intro call", 30⟩
    ⟨7, "host@example.com"⟩ [⟨1800000, 1860000⟩]
    (by decide) (by decide) (by decide) rfl (by decide) (by decide) rfl rfl
  exact ⟨h.1.mpr (by simp), by simpa [requestedEnd] using h.2⟩

/-- Counterexample to C8 as stated: a notification-dispatch failure after
the booking row was persisted surfaces to the caller as a failure
response (HTTP 500) even though the booking is committed. -/
theorem book_email_failure_surfaces_counterexample :
    (book sampleStore sampleReq sampleParse emailFailCollab).result
      = .upstreamFailure "email dispatch failed" ∧
    (responseOf (book sampleStore sampleReq sampleParse emailFailCollab).result).ok = false ∧
    (responseOf (book sampleStore sampleReq sampleParse emailFailCollab).result).status = 500 ∧
    newBooking sampleStore 1 "Alice" "alice@example.com" 0 ⟨1, 7, "Intro call", 30⟩ ∈
      (book sampleStore sampleReq sampleParse emailFailCollab).store.bookings := by decide

/-- Claim C8, amended: The five error kinds are surfaced as distinct
user-visible failure responses, but notification-dispatch failures are
not excepted: a failure dispatching the confirmation email after the
booking row was persisted surfaces as `UPSTREAM_FAILURE` (HTTP 500)
while the booking remains persisted. -/
theorem book_errors_surfaced_email_failure_persists
    (s : Store) (mtId : Nat) (rname remail : String) (startMs : Int)
    (mt : MeetingType) (host : User) (c : Collaborators) (eid : Nat)
    (hga : c.googleAuth = .ok ())
    (hfb : c.freebusy = .ok [])
    (hlocal : localOverlapExists s mt.user_id startMs (requestedEnd startMs mt) = false)
    (hev : c.eventInsert = .ok eid)
    (hins : c.bookingInsertOk = true)
    (hem : c.emailOk (confirmEmail mt host remail) = false) :
    ([responseOf .notFound, responseOf (.invalidInput "invalid start_time"),
      responseOf .calendarConflict, responseOf .localConflict,
      responseOf (.upstreamFailure "email dispatch failed")].Pairwise (· ≠ ·)) ∧
    (∀ m, (responseOf (.invalidInput m)).ok = false) ∧
    (responseOf .notFound).ok = false ∧
    (responseOf .calendarConflict).ok = false ∧
    (responseOf .localConflict).ok = false ∧
    (∀ m, (responseOf (.upstreamFailure m)).ok = false) ∧
    (bookCore s mtId rname remail startMs mt host c).result
      = .upstreamFailure "email dispatch failed" ∧
    responseOf (bookCore s mtId rname remail startMs mt host c).result
      = ⟨500, false, some "email dispatch failed"⟩ ∧
    newBooking s mtId rname remail startMs mt ∈
      (bookCore s mtId rname remail startMs mt host c).store.bookings := by
  have hcore : bookCore s mtId rname remail startMs mt host c
      = ⟨.upstreamFailure "email dispatch failed",
          { s with bookings := s.bookings ++ [newBooking s mtId rname remail startMs mt] },
          [.freebusyQuery startMs (requestedEnd startMs mt), .eventsInsert,
            .emailSend remail]⟩ := by
    simp [bookCore, hga, hfb, hlocal, hev, hins, hem]
  refine ⟨by decide, fun m => rfl, rfl, rfl, rfl, fun m => rfl, ?_, ?_, ?_⟩
  · rw [hcore]
  · rw [hcore]
    rfl
  · rw [hcore]
    simp

/-- Witness for the amended C8 at a concrete email-failing run. -/
theorem book_errors_surfaced_email_failure_persists_witness :
    (bookCore sampleStore 1 "Alice" "alice@example.com" 0 ⟨1, 7, "Intro call", 30⟩
        ⟨7, "host@example.com"⟩ emailFailCollab).result
      = .upstreamFailure "email dispatch failed" :=
  (book_errors_surfaced_email_failure_persists sampleStore 1 "Alice" "alice@example.com" 0
    ⟨1, 7, "Intro call", 30⟩ ⟨7, "host@example.com"⟩ emailFailCollab 99
    rfl rfl (by decide) rfl rfl rfl).2.2.2.2.2.2.1

end SetTheTime
